import Mathlib

/-!
# Verification of the concurrent ticket-sale back-end

Shallow embedding of the core data structures and operations of the
`ticket-sale-rocket` crate: the ticket `Database`, the worker (`Server` in the
source, in its standard and bonus variants), the system-level composition used
by the conservation invariant, the balancer/coordinator routing path, and the
estimator sweep.

Modelling conventions:
* Ticket ids, customer ids and worker ids are `Nat` (they are opaque `u32`
  resp. `Uuid` values in the source; no arithmetic is performed on them, so no
  wrap-around can occur).
* `Instant` is a `Nat` count of whole seconds; `created_at.elapsed().as_secs()`
  at logical time `now` is `now - created_at` (truncated subtraction, matching
  the fact that an `Instant` is never in the future).
* Rust `HashMap`s are association lists whose operations remove / replace the
  first matching key; starting from the empty map these lists always have
  distinct keys, so this agrees with `HashMap` semantics.
* Code paths that panic in the source (`unwrap` on a missing entry,
  `gen_range` on an empty range) are modelled by an explicit `panic`
  outcome, never by a default value, wherever a claim depends on them.
* `(x as f64).sqrt() as u32` equals `Nat.sqrt x` for every `x : u32`: `x` is
  exactly representable in `f64`, `f64::sqrt` is correctly rounded, and for
  `k ≤ 2^16` the gap `k - sqrt (k^2 - 1) ≈ 1/(2k) ≥ 2^-17` exceeds the
  half-ulp `2^-37` at `k`, so rounding never crosses an integer; the `as u32`
  truncation therefore yields exactly `⌊√x⌋`.
-/

/-- Status of a worker, `ServerStatus` in `serverstatus.rs`. -/
inductive ServerStatus where
  | active
  | terminating
  | terminated
  | shutdown
deriving DecidableEq, Repr

/-- Outcome of a request as observed by the client: the terminal response
operations of `ticket_sale_core::Request`, plus `panic` for source paths that
panic instead of responding. -/
inductive Response where
  | int (n : Nat)
  | err (msg : String)
  | soldOut
  | panic
deriving DecidableEq, Repr

namespace Database

/-- `Database::get_num_available` (`database.rs`): size of the unallocated
pool. The pool itself is the `unallocated : Vec<u32>` field, modelled as a
`List Nat`. -/
def get_num_available (db : List Nat) : Nat := db.length

/-- `Database::allocate` (`database.rs`): removes `min(k, size)` tickets from
the tail and returns them first, with the remaining pool second.  When
`k ≥ size` the whole pool is taken (`std::mem::take`); otherwise
`split = size - k`, the returned batch is `unallocated[split..]` and the pool
is truncated to `split`. -/
def allocate (db : List Nat) (k : Nat) : List Nat × List Nat :=
  if db.length ≤ k then (db, [])
  else (db.drop (db.length - k), db.take (db.length - k))

/-- `Database::deallocate` (`database.rs`): appends the batch to the pool. -/
def deallocate (db : List Nat) (batch : List Nat) : List Nat := db ++ batch

/-- `Database::new` (`database.rs`): the pool starts as `[0 .. num_tickets)`. -/
def new (numTickets : Nat) : List Nat := List.range numTickets

end Database

/-- The drained-batch / remaining-pool characterisation of
`Database::allocate`, written from the spec's words: "removes min(k, size)
tickets from the tail and returns them. If k ≥ size, returns the whole pool
and leaves it empty." -/
def allocateSpec (db : List Nat) (k : Nat) : List Nat × List Nat :=
  (db.drop (db.length - min k db.length), db.take (db.length - min k db.length))

/-! ## Reservation table

The worker's `reserved: HashMap<Uuid, (u32, Instant)>` is modelled as an
association list of `(customer, ticket, created_at)` triples.  `HashMap`
lookup / removal / insertion act on the unique entry with that key; the list
operations below act on the first matching entry, which coincides with the
`HashMap` behaviour because keys stay distinct (insertion always erases the
key first). -/

/-- `reserved.get(&customer)`: the `(ticket, created_at)` pair, if present. -/
def lookupRes : List (Nat × Nat × Nat) → Nat → Option (Nat × Nat)
  | [], _ => none
  | (c, t, tm) :: rest, c' => if c = c' then some (t, tm) else lookupRes rest c'

/-- `reserved.remove(&customer)`: erase the entry with that key. -/
def removeRes : List (Nat × Nat × Nat) → Nat → List (Nat × Nat × Nat)
  | [], _ => []
  | (c, t, tm) :: rest, c' =>
      if c = c' then rest else (c, t, tm) :: removeRes rest c'

/-- `reserved.insert(customer, (ticket, time))`: replace any entry with that
key by the new value. -/
def insertRes (res : List (Nat × Nat × Nat)) (c t tm : Nat) :
    List (Nat × Nat × Nat) :=
  (c, t, tm) :: removeRes res c

/-- `reserved.contains_key(&customer)`. -/
def containsRes (res : List (Nat × Nat × Nat)) (c : Nat) : Bool :=
  (lookupRes res c).isSome

/-! ## Worker state and timeout expiration -/

/-- Owned state of a worker thread (`Server` in `server.rs`, `ServerBonus` in
`server_bonus.rs`; both own the same fields).  The database is external
state, threaded explicitly through each operation. -/
structure Server where
  status : ServerStatus
  /-- `tickets`: the local stock, last element = top of the `Vec`. -/
  tickets : List Nat
  /-- `estimate`: tickets known to reside elsewhere (from the estimator). -/
  estimate : Nat
  /-- `reserved`: customer → (ticket, created_at). -/
  reserved : List (Nat × Nat × Nat)
  /-- `timeout_queue`: FIFO of (customer, created_at). -/
  timeout_queue : List (Nat × Nat)
  /-- configured reservation timeout in seconds. -/
  timeout : Nat
deriving DecidableEq, Repr

namespace Server

/-- One entry of the timeout queue is expired when
`created_at.elapsed().as_secs() > timeout` (the loop in
`remove_timeouted_reservations` breaks on `elapsed <= timeout`). -/
def expired (now timeout : Nat) (e : Nat × Nat) : Bool :=
  decide (timeout < now - e.2)

/-- The `while` loop of `remove_timeouted_reservations` (`server.rs` lines
262-288, identical in `server_bonus.rs`): pop expired entries from the front
of the queue; for each, if the live reservation still bears the same
`created_at`, move its ticket back to the local stock (Active) or to the
database (otherwise) and drop the reservation. -/
def drainQueue (now timeout : Nat) (status : ServerStatus) :
    List (Nat × Nat) → List (Nat × Nat × Nat) → List Nat → List Nat →
    List (Nat × Nat) × List (Nat × Nat × Nat) × List Nat × List Nat
  | [], res, tk, db => ([], res, tk, db)
  | (c, tm) :: rest, res, tk, db =>
      if now - tm ≤ timeout then ((c, tm) :: rest, res, tk, db)
      else
        match lookupRes res c with
        | some (ticket, tm') =>
            if tm' = tm then
              if status = ServerStatus.active then
                drainQueue now timeout status rest (removeRes res c)
                  (tk ++ [ticket]) db
              else
                drainQueue now timeout status rest (removeRes res c) tk
                  (db ++ [ticket])
            else drainQueue now timeout status rest res tk db
        | none => drainQueue now timeout status rest res tk db

/-- `Server::remove_timeouted_reservations` (`server.rs` lines 260-296,
`ServerBonus::remove_timeouted_reservations` in `server_bonus.rs` lines
278-321): drain the queue, then promote Terminating → Terminated if no
reservations remain. -/
def remove_timeouted_reservations (now : Nat) (s : Server) (db : List Nat) :
    Server × List Nat :=
  let r := drainQueue now s.timeout s.status s.timeout_queue s.reserved s.tickets db
  let status :=
    if r.2.1.isEmpty ∧ s.status = ServerStatus.terminating then
      ServerStatus.terminated
    else s.status
  ({ s with status := status, tickets := r.2.2.1, reserved := r.2.1,
            timeout_queue := r.1 }, r.2.2.2)

end Server

namespace Server

/-- `Server::get_available_tickets` (`server.rs` line 328,
`server_bonus.rs` line 359): `local_stock.len() + estimate`. -/
def get_available_tickets (s : Server) : Nat :=
  s.tickets.length + s.estimate

/-- Batch size pulled from the database by the standard server
(`server.rs` lines 363-366 and 64-67):
`min((avail as f64).sqrt() as u32 * 2, avail)`. -/
def batchSizeStd (avail : Nat) : Nat := min (2 * Nat.sqrt avail) avail

/-- Batch size pulled from the database by the bonus server
(`server_bonus.rs` line 396): `(avail as f64).sqrt() as u32`. -/
def batchSizeBonus (avail : Nat) : Nat := Nat.sqrt avail

/-- Common body of `process_reservation` (`server.rs` lines 333-377 and
`server_bonus.rs` lines 364-414, which differ only in the batch-size
formula): double-reservation check, Terminating refusal, refill-or-sold-out,
then pop the last ticket, record the reservation and append to the timeout
queue.  The result is the new worker state, the new database, and the
response. The `.panic` branch is the `self.tickets.pop().unwrap()` on an
empty stock, which is unreachable (a non-trivial batch is always pulled
first). -/
def processReservationWith (batchSize : Nat → Nat) (now customer : Nat)
    (s : Server) (db : List Nat) : Server × List Nat × Response :=
  if containsRes s.reserved customer then
    (s, db, .err "Our error: One reservation already present.")
  else if s.status = ServerStatus.terminating then
    (s, db, .err "Our error: Ticket reservations no longer allowed on this server")
  else
    let (stock, db') :=
      if s.tickets.isEmpty then
        let alloc := Database.allocate db (batchSize db.length)
        (s.tickets ++ alloc.1, alloc.2)
      else (s.tickets, db)
    if s.tickets.isEmpty ∧ Database.get_num_available db = 0 then
      (s, db, .soldOut)
    else
      match stock.getLast? with
      | some ticket =>
          ({ s with tickets := stock.dropLast,
                    reserved := insertRes s.reserved customer ticket now,
                    timeout_queue := s.timeout_queue ++ [(customer, now)] },
           db', .int ticket)
      | none => (s, db', .panic)

/-- `Server::process_reservation` (`server.rs` lines 333-377). -/
def process_reservation (now customer : Nat) (s : Server) (db : List Nat) :
    Server × List Nat × Response :=
  processReservationWith batchSizeStd now customer s db

/-- `ServerBonus::process_reservation` (`server_bonus.rs` lines 364-414). -/
def process_reservation_bonus (now customer : Nat) (s : Server)
    (db : List Nat) : Server × List Nat × Response :=
  processReservationWith batchSizeBonus now customer s db

/-- `Server::process_buy` (`server.rs` lines 380-410): parse the ticket id,
require a reservation whose ticket matches, remove it, promote
Terminating → Terminated when this empties the table, reply with the ticket;
the ticket is consumed (returned to no pool). -/
def process_buy (customer : Nat) (ticketOpt : Option Nat) (s : Server)
    (db : List Nat) : Server × List Nat × Response :=
  match ticketOpt with
  | none => (s, db, .err "Our error: No ticket id given.")
  | some ticket =>
      match lookupRes s.reserved customer with
      | some (rt, _) =>
          if rt = ticket then
            let res := removeRes s.reserved customer
            let status :=
              if res.isEmpty ∧ s.status = ServerStatus.terminating then
                ServerStatus.terminated
              else s.status
            ({ s with reserved := res, status := status }, db, .int ticket)
          else
            (s, db,
             .err "Our error: Reservation not made for that ticket for buy request.")
      | none => (s, db, .err "Our error: No reservation for buy request.")

/-- `ServerBonus::process_buy` (`server_bonus.rs` lines 417-458): same checks
but implemented by removing the reservation first and re-inserting it on a
ticket mismatch. -/
def process_buy_bonus (customer : Nat) (ticketOpt : Option Nat) (s : Server)
    (db : List Nat) : Server × List Nat × Response :=
  match ticketOpt with
  | none => (s, db, .err "Our error: No ticket id given.")
  | some ticket =>
      match lookupRes s.reserved customer with
      | some (rt, tm) =>
          let res := removeRes s.reserved customer
          if rt = ticket then
            let status :=
              if res.isEmpty ∧ s.status = ServerStatus.terminating then
                ServerStatus.terminated
              else s.status
            ({ s with reserved := res, status := status }, db, .int ticket)
          else
            ({ s with reserved := insertRes res customer rt tm }, db,
             .err "Our error: Reservation not made for that ticket for buy request.")
      | none => (s, db, .err "Our error: No reservation for buy request.")

/-- `Server::process_cancel` (`server.rs` lines 412-450): same prechecks as
buy; on success the ticket returns to the local stock (Active) or the
database (otherwise), with the same Terminating → Terminated promotion. -/
def process_cancel (customer : Nat) (ticketOpt : Option Nat) (s : Server)
    (db : List Nat) : Server × List Nat × Response :=
  match ticketOpt with
  | none => (s, db, .err "Our error: No ticket id given.")
  | some ticket =>
      match lookupRes s.reserved customer with
      | some (rt, _) =>
          if rt = ticket then
            let res := removeRes s.reserved customer
            let (tickets, db') :=
              if s.status = ServerStatus.active then
                (s.tickets ++ [ticket], db)
              else (s.tickets, Database.deallocate db [ticket])
            let status :=
              if res.isEmpty ∧ s.status = ServerStatus.terminating then
                ServerStatus.terminated
              else s.status
            ({ s with reserved := res, tickets := tickets, status := status },
             db', .int ticket)
          else
            (s, db,
             .err "Our error: Reservation not made for that ticket for cancel request.")
      | none => (s, db, .err "Our error: No reservation for cancel request.")

/-- `ServerBonus::process_cancel` (`server_bonus.rs` lines 461-509):
remove-first formulation with re-insertion on mismatch. -/
def process_cancel_bonus (customer : Nat) (ticketOpt : Option Nat)
    (s : Server) (db : List Nat) : Server × List Nat × Response :=
  match ticketOpt with
  | none => (s, db, .err "Our error: No ticket id given.")
  | some ticket =>
      match lookupRes s.reserved customer with
      | some (rt, tm) =>
          let res := removeRes s.reserved customer
          if rt = ticket then
            let (tickets, db') :=
              if s.status = ServerStatus.active then
                (s.tickets ++ [ticket], db)
              else (s.tickets, Database.deallocate db [ticket])
            let status :=
              if res.isEmpty ∧ s.status = ServerStatus.terminating then
                ServerStatus.terminated
              else s.status
            ({ s with reserved := res, tickets := tickets, status := status },
             db', .int ticket)
          else
            ({ s with reserved := insertRes res customer rt tm }, db,
             .err "Our error: Reservation not made for that ticket for buy request.")
      | none => (s, db, .err "Our error: No reservation for cancel request.")

/-- `Server::activate` (`server.rs` lines 231-237): become Active unless
shutting down. -/
def activate (s : Server) : Server :=
  if s.status = ServerStatus.shutdown then s
  else { s with status := ServerStatus.active }

/-- `Server::deactivate` (`server.rs` lines 240-257): become Terminating,
return the whole local stock to the database, and promote to Terminated if no
reservations remain. -/
def deactivate (s : Server) (db : List Nat) : Server × List Nat :=
  if s.status = ServerStatus.shutdown then (s, db)
  else
    let db' := if s.tickets.isEmpty then db else Database.deallocate db s.tickets
    let status :=
      if s.reserved.isEmpty then ServerStatus.terminated
      else ServerStatus.terminating
    ({ s with status := status, tickets := [] }, db')

/-- `Server::send_tickets` (`server.rs` lines 299-303), the handler of the
`Estimate` control message: run the timeout pass, store the estimate, and
report `local_stock.len()` back to the estimator (the reported count is the
`Nat` in the result). -/
def send_tickets (now tickets : Nat) (s : Server) (db : List Nat) :
    Server × List Nat × Nat :=
  let (s', db') := remove_timeouted_reservations now s db
  ({ s' with estimate := tickets }, db', s'.tickets.length)

/-- `Server::new` (`server.rs` lines 52-85): a fresh standard worker
immediately allocates `min(2 * ⌊√avail⌋, avail)` tickets from the database
into its local stock and starts Active with empty reservations. -/
def new (timeout : Nat) (db : List Nat) : Server × List Nat :=
  let avail := Database.get_num_available db
  let alloc := Database.allocate db (batchSizeStd avail)
  ({ status := ServerStatus.active, tickets := alloc.1, estimate := 0,
     reserved := [], timeout_queue := [], timeout := timeout }, alloc.2)

/-- Kind of a customer-scoped request, the four low-priority `RequestKind`s. -/
inductive CustomerOp where
  | numAvailableTickets
  | reserveTicket
  | buyTicket (ticketOpt : Option Nat)
  | abortPurchase (ticketOpt : Option Nat)
deriving DecidableEq, Repr

/-- Dispatch of `Server::process_low_priority` after the timeout pass
(`server.rs` lines 306-325). -/
def dispatchCustomer (now customer : Nat) (op : CustomerOp) (s : Server)
    (db : List Nat) : Server × List Nat × Response :=
  match op with
  | .numAvailableTickets => (s, db, .int (get_available_tickets s))
  | .reserveTicket => process_reservation now customer s db
  | .buyTicket t => process_buy customer t s db
  | .abortPurchase t => process_cancel customer t s db

/-- `Server::process_low_priority` (`server.rs` lines 306-325): every
customer operation starts with `remove_timeouted_reservations`. -/
def process_low_priority (now customer : Nat) (op : CustomerOp) (s : Server)
    (db : List Nat) : Server × List Nat × Response :=
  let (s', db') := remove_timeouted_reservations now s db
  dispatchCustomer now customer op s' db'

/-- Bonus-variant dispatch (`server_bonus.rs` lines 335-356). -/
def dispatchCustomerBonus (now customer : Nat) (op : CustomerOp) (s : Server)
    (db : List Nat) : Server × List Nat × Response :=
  match op with
  | .numAvailableTickets => (s, db, .int (get_available_tickets s))
  | .reserveTicket => process_reservation_bonus now customer s db
  | .buyTicket t => process_buy_bonus customer t s db
  | .abortPurchase t => process_cancel_bonus customer t s db

/-- `ServerBonus::process_low_priority` (`server_bonus.rs` lines 335-356). -/
def process_low_priority_bonus (now customer : Nat) (op : CustomerOp)
    (s : Server) (db : List Nat) : Server × List Nat × Response :=
  let (s', db') := remove_timeouted_reservations now s db
  dispatchCustomerBonus now customer op s' db'

end Server

/-! ## System-level model for the conservation invariant

A system state is the database pool, the list of worker states, and the list
of tickets confirmed through successful Buy responses.  Each operation is a
message processed atomically by one worker (the database mutex serialises the
worker/database interaction, and each worker thread handles one message at a
time, so every interleaved run is a sequence of these steps). -/

/-- Ticket multiset held by one worker: local stock plus reserved tickets. -/
def wpool (s : Server) : Multiset Nat :=
  (s.tickets : Multiset Nat) + (s.reserved.map (fun r => r.2.1) : Multiset Nat)

/-- Whole-system state. -/
structure Sys where
  db : List Nat
  workers : List Server
  sold : List Nat
deriving DecidableEq, Repr

/-- Every ticket in the system: database pool, worker stocks and reservation
tables, and tickets handed out by successful Buy responses. -/
def syspool (σ : Sys) : Multiset Nat :=
  (σ.db : Multiset Nat) + (σ.workers.map wpool).sum + (σ.sold : Multiset Nat)

/-- One atomic system operation. -/
inductive Op where
  /-- worker `w` processes a customer request (timeout pass included). -/
  | customer (w now customer : Nat) (op : Server.CustomerOp)
  /-- worker `w` processes an `Estimate` control message. -/
  | estimate (w now tickets : Nat)
  /-- worker `w` processes `Activate`. -/
  | activate (w : Nat)
  /-- worker `w` processes `Deactivate`. -/
  | deactivate (w : Nat)
  /-- worker `w` processes `Shutdown`. -/
  | shutdown (w : Nat)
  /-- the coordinator spawns a fresh standard worker (`Server::new` inside
  `Coordinator::scale_to`). -/
  | spawn (timeout : Nat)

/-- The ticket captured by a successful Buy response (`process_buy` replies
`respond_with_int(ticket)` exactly on the success path). -/
def soldOf : Server.CustomerOp → Response → List Nat
  | .buyTicket _, .int t => [t]
  | _, _ => []

/-- Apply a per-worker update at index `w`; out-of-range indices are no-ops
(the coordinator only routes to workers it created). -/
def updateWorker (σ : Sys) (w : Nat)
    (f : Server → List Nat → Server × List Nat × List Nat) : Sys :=
  match σ.workers[w]? with
  | none => σ
  | some s =>
      let r := f s σ.db
      { db := r.2.1, workers := σ.workers.set w r.1,
        sold := σ.sold ++ r.2.2 }

/-- System transition function. -/
def sysStep (σ : Sys) : Op → Sys
  | .customer w now customer op =>
      updateWorker σ w fun s db =>
        let r := Server.process_low_priority now customer op s db
        (r.1, r.2.1, soldOf op r.2.2)
  | .estimate w now tickets =>
      updateWorker σ w fun s db =>
        let r := Server.send_tickets now tickets s db
        (r.1, r.2.1, [])
  | .activate w =>
      updateWorker σ w fun s db => (Server.activate s, db, [])
  | .deactivate w =>
      updateWorker σ w fun s db =>
        let r := Server.deactivate s db
        (r.1, r.2, [])
  | .shutdown w =>
      updateWorker σ w fun s db =>
        ({ s with status := ServerStatus.shutdown }, db, [])
  | .spawn timeout =>
      let r := Server.new timeout σ.db
      { db := r.2, workers := σ.workers ++ [r.1], sold := σ.sold }

/-- States reachable from system start (`launch` creates the database with
`[0..N)` and no workers). -/
inductive Reachable (N : Nat) : Sys → Prop where
  | init : Reachable N ⟨Database.new N, [], []⟩
  | step {σ : Sys} (op : Op) : Reachable N σ → Reachable N (sysStep σ op)

/-- A short concrete run: spawn one worker over a 3-ticket database, reserve
a ticket as customer 7, then buy it. -/
def sysTraceC1 : Sys :=
  sysStep (sysStep (sysStep ⟨Database.new 3, [], []⟩ (Op.spawn 10))
    (Op.customer 0 5 7 Server.CustomerOp.reserveTicket))
    (Op.customer 0 6 7 (Server.CustomerOp.buyTicket (some 2)))

/-! ## Timeout expiration: specification-level refinement (claim C2) -/

/-- Effect of draining one expired timeout-queue entry, written from the
spec's words: "For each drained pair, if the live reservation still bears the
same `created_at`, evict it and return its ticket to `local_stock` (if
Active) or Database (otherwise)"; a pair whose `created_at` no longer matches
causes no change.  State is (reservations, local stock, database). -/
def evictEntry (status : ServerStatus)
    (st : List (Nat × Nat × Nat) × List Nat × List Nat) (e : Nat × Nat) :
    List (Nat × Nat × Nat) × List Nat × List Nat :=
  match lookupRes st.1 e.1 with
  | some (ticket, tm') =>
      if tm' = e.2 then
        if status = ServerStatus.active then
          (removeRes st.1 e.1, st.2.1 ++ [ticket], st.2.2)
        else (removeRes st.1 e.1, st.2.1, st.2.2 ++ [ticket])
      else st
  | none => st

/-- Specification-level timeout pass: drain from the head exactly the entries
strictly older than the timeout (`takeWhile`), applying `evictEntry` to each
in order. -/
def evictExpired (now timeout : Nat) (status : ServerStatus)
    (q : List (Nat × Nat)) (res : List (Nat × Nat × Nat)) (tk db : List Nat) :
    List (Nat × Nat × Nat) × List Nat × List Nat :=
  (q.takeWhile (Server.expired now timeout)).foldl (evictEntry status)
    (res, tk, db)

/-- A concrete worker for exercising the timeout pass: customer 1's
reservation (age 4 > timeout 2) is expired, customer 2's (age 1) is live. -/
def serverC2 : Server :=
  { status := ServerStatus.active, tickets := [5], estimate := 0,
    reserved := [(1, 9, 0), (2, 8, 3)], timeout_queue := [(1, 0), (2, 3)],
    timeout := 2 }

/-- The stock after the on-demand refill step of `process_reservation`. -/
def refilledStock (batchSize : Nat → Nat) (s : Server) (db : List Nat) :
    List Nat :=
  if s.tickets.isEmpty then
    s.tickets ++ (Database.allocate db (batchSize db.length)).1
  else s.tickets

/-- The database after the on-demand refill step of `process_reservation`. -/
def refilledDb (batchSize : Nat → Nat) (s : Server) (db : List Nat) :
    List Nat :=
  if s.tickets.isEmpty then (Database.allocate db (batchSize db.length)).2
  else db

/-- A concrete worker with an empty stock for exercising the refill path. -/
def serverC4 : Server :=
  { status := ServerStatus.active, tickets := [], estimate := 0,
    reserved := [], timeout_queue := [], timeout := 10 }

/-- A concrete drained worker: empty stock, no reservations. -/
def serverC5 : Server :=
  { status := ServerStatus.active, tickets := [], estimate := 0,
    reserved := [], timeout_queue := [], timeout := 10 }

/-- The three failure conditions of Buy / AbortPurchase: unparseable body,
no reservation for the customer, or a ticket id differing from the reserved
one. -/
def badBuyInput (c : Nat) (t? : Option Nat)
    (res : List (Nat × Nat × Nat)) : Prop :=
  t? = none ∨ lookupRes res c = none ∨
    (∃ rt tm t, t? = some t ∧ lookupRes res c = some (rt, tm) ∧ rt ≠ t)

/-- A worker holding one reservation, for exercising the mismatch path. -/
def serverC6 : Server :=
  { status := ServerStatus.active, tickets := [4], estimate := 0,
    reserved := [(7, 9, 2)], timeout_queue := [(7, 2)], timeout := 10 }

/-! ## Balancer / coordinator routing (claim C8)

Association-list helpers for `HashMap<Uuid, usize>` and
`HashMap<Uuid, u32>`. -/

/-- `map.get(&k)`. -/
def lookupN : List (Nat × Nat) → Nat → Option Nat
  | [], _ => none
  | (k, v) :: rest, k' => if k = k' then some v else lookupN rest k'

/-- `map.contains_key(&k)`. -/
def containsN (m : List (Nat × Nat)) (k : Nat) : Bool := (lookupN m k).isSome

/-- `*map.get_mut(&k).unwrap() = v` (no-op when the key is absent; the call
sites below only reach it with the key present). -/
def setN : List (Nat × Nat) → Nat → Nat → List (Nat × Nat)
  | [], _, _ => []
  | (k, v) :: rest, k', v' =>
      if k = k' then (k, v') :: rest else (k, v) :: setN rest k' v'

/-- `map.remove(&k)`. -/
def removeN : List (Nat × Nat) → Nat → List (Nat × Nat)
  | [], _ => []
  | (k, v) :: rest, k' => if k = k' then rest else (k, v) :: removeN rest k'

/-- Routing-relevant state of `CoordinatorStandard`
(`coordinator_standard.rs`): the active-prefix count, the ordered id vector,
and the id → index map.  The parallel sender/thread vectors are mutated in
lockstep with `server_id_list` and do not influence which response a request
receives, so they are not carried. -/
structure CoordinatorStandard where
  no_active_servers : Nat
  server_id_list : List Nat
  map_id_index : List (Nat × Nat)
deriving DecidableEq, Repr

/-- `Vec::swap(i, j)` (panics if out of range; call sites stay in range). -/
def listSwap (l : List Nat) (i j : Nat) : List Nat :=
  match l[i]?, l[j]? with
  | some a, some b => (l.set i b).set j a
  | _, _ => l

namespace CoordinatorStandard

/-- `CoordinatorStandard::get_random_server` (`coordinator_standard.rs`
lines 84-87): `server_id_list[rng.gen_range(0..no_active_servers)]`.
`gen_range` on the empty range `0..0` panics, modelled as `none`; the random
draw is modelled by `choice % no_active_servers`. -/
def get_random_server (co : CoordinatorStandard) (choice : Nat) : Option Nat :=
  if co.no_active_servers = 0 then none
  else co.server_id_list[choice % co.no_active_servers]?

/-- One iteration of `CoordinatorStandard::update_servers`
(`coordinator_standard.rs` lines 99-126): look up the terminated id's index
(`unwrap`, panics — `none` — if absent), swap-remove it from the parallel
vectors updating the map for the swapped entry, and drop it from the map. -/
def removeTerminated (co : CoordinatorStandard) (uuid : Nat) :
    Option CoordinatorStandard :=
  match lookupN co.map_id_index uuid with
  | none => none
  | some index =>
      let n := co.server_id_list.length
      let co1 :=
        if index ≠ n - 1 then
          let ids := listSwap co.server_id_list index (n - 1)
          { co with
            server_id_list := ids,
            map_id_index := setN co.map_id_index (ids.getD index 0) index }
        else co
      some { co1 with
             server_id_list := co1.server_id_list.dropLast,
             map_id_index := removeN co1.map_id_index uuid }

/-- `CoordinatorStandard::update_servers` over the queued termination
notifications. -/
def update_servers (co : CoordinatorStandard) (terminated : List Nat) :
    Option CoordinatorStandard :=
  terminated.foldlM removeTerminated co

end CoordinatorStandard

/-- What the balancer does with one customer-scoped request, as observed by
the client. -/
inductive RouteOutcome where
  | forwarded (server : Nat)
  | errored (server : Nat) (msg : String)
  | panicked
deriving DecidableEq, Repr

/-- The customer-request branch of `BalancerStandard::handle`
(`balancer_standard.rs` lines 81-107): with a sticky server id, reap
terminated workers, forward if the id still exists, otherwise reassign a
random active worker and answer an obsolete-worker error; without a server
id, forward to a random active worker.  `terminated` is the content of the
termination-notification channel; `choice` models the RNG draw. -/
def balancer_route (co : CoordinatorStandard) (terminated : List Nat)
    (serverId? : Option Nat) (choice : Nat) : RouteOutcome :=
  match serverId? with
  | some server =>
      match co.update_servers terminated with
      | none => RouteOutcome.panicked
      | some co1 =>
          if containsN co1.map_id_index server then
            RouteOutcome.forwarded server
          else
            match co1.get_random_server choice with
            | some newServer =>
                RouteOutcome.errored newServer
                  "Our error: Server no longer exists."
            | none => RouteOutcome.panicked
  | none =>
      match co.get_random_server choice with
      | some server => RouteOutcome.forwarded server
      | none => RouteOutcome.panicked

/-! ## Estimator sweep (claim C9) -/

/-- `Σ server_tickets.values()`. -/
def sumValuesN (m : List (Nat × Nat)) : Nat := (m.map (fun e => e.2)).sum

/-- One worker visit in an estimator sweep: the worker's id, whether the
`Estimate` send succeeded (it fails when the worker has terminated), and the
worker's `local_stock.len()` reply when it did. -/
structure SweepEvent where
  server : Nat
  sendOk : Bool
  reply : Nat
deriving DecidableEq, Repr

/-- The per-server loop of `EstimatorStandard::run` (`estimator_standard.rs`
lines 87-127) and `Estimator::run` (`estimator.rs` lines 69-110): `sum`
starts as `Σ server_tickets.values()`; for each visited worker, subtract its
entry from `sum`, send `Estimate(sum + db)`, overwrite its entry with the
reply (or with 0 on send failure), and add the new entry back to `sum`.
Returns the final `server_tickets` map and the log of
`(worker, value sent)` pairs.  `server_tickets[server]` panics when the key
is absent; it is modelled by `getD 0` and guarded by the containment
hypothesis of the theorem below. -/
def estRun (db : Nat) : List (Nat × Nat) → Nat → List SweepEvent →
    List (Nat × Nat) × List (Nat × Nat)
  | m, _, [] => (m, [])
  | m, sum, ev :: rest =>
      let sum1 := sum - (lookupN m ev.server).getD 0
      let sent := sum1 + db
      let nc := if ev.sendOk then ev.reply else 0
      let r := estRun db (setN m ev.server nc) (sum1 + nc) rest
      (r.1, (ev.server, sent) :: r.2)

/-- An estimator sweep starting from the recorded map `m` and the database
count `db` read at the start of the sweep. -/
def estimator_sweep (db : Nat) (m : List (Nat × Nat))
    (evs : List SweepEvent) : List (Nat × Nat) × List (Nat × Nat) :=
  estRun db m (sumValuesN m) evs

/-- The sweep as the spec describes it: each visited worker is sent the
database count read at the start of the sweep plus the sum of the
last-reported counts of every *other* tracked worker (counts refreshed
earlier in the same sweep included), and its entry is then overwritten with
its reply, or with 0 on a failed send. -/
def estRunSpec (db : Nat) : List (Nat × Nat) → List SweepEvent →
    List (Nat × Nat) × List (Nat × Nat)
  | m, [] => (m, [])
  | m, ev :: rest =>
      let sent := db + sumValuesN (removeN m ev.server)
      let r := estRunSpec db (setN m ev.server
        (if ev.sendOk then ev.reply else 0)) rest
      (r.1, (ev.server, sent) :: r.2)

theorem Database.allocate_append (db : List Nat) (k : Nat) :
    (allocate db k).2 ++ (allocate db k).1 = db := by
  unfold allocate
  split
  · simp
  · simp [List.take_append_drop]

theorem Database.allocate_fst_length (db : List Nat) (k : Nat) :
    (allocate db k).1.length = min k db.length := by
  unfold allocate
  split
  · simp; omega
  · simp; omega

theorem Database.allocate_snd_length (db : List Nat) (k : Nat) :
    (allocate db k).2.length = db.length - min k db.length := by
  unfold allocate
  split
  · simp; omega
  · simp; omega

/-- Claim C3: For every database state holding `s` unallocated tickets and every `k`:
`allocate k` removes the last `min k s` tickets from the tail and returns
them, returning the whole pool and leaving it empty when `k ≥ s`, so
`get_num_available` afterwards returns `s - min k s`; and `deallocate batch`
appends the batch, increasing `get_num_available` by the batch's length. -/
theorem database_allocate_deallocate_spec (db batch : List Nat) (k : Nat) :
    Database.allocate db k = allocateSpec db k ∧
    (db.length ≤ k → Database.allocate db k = (db, [])) ∧
    Database.get_num_available (Database.allocate db k).2
      = db.length - min k db.length ∧
    Database.deallocate db batch = db ++ batch ∧
    Database.get_num_available (Database.deallocate db batch)
      = Database.get_num_available db + batch.length := by
  refine ⟨?_, ?_, ?_, rfl, ?_⟩
  · unfold Database.allocate allocateSpec
    split
    · have h : db.length - min k db.length = 0 := by omega
      simp [h]
    · have h : min k db.length = k := by omega
      simp [h]
  · intro h
    unfold Database.allocate
    simp [h]
  · exact Database.allocate_snd_length db k
  · simp [Database.deallocate, Database.get_num_available]

theorem lookupRes_none_removeRes {res : List (Nat × Nat × Nat)} {c : Nat}
    (h : lookupRes res c = none) : removeRes res c = res := by
  induction res with
  | nil => rfl
  | cons hd tl ih =>
      obtain ⟨c', t, tm⟩ := hd
      by_cases hc : c' = c
      · simp [lookupRes, hc] at h
      · simp [lookupRes, hc] at h
        simp [removeRes, hc, ih h]

/-- Erasing the found entry splits the reservation table's ticket multiset. -/
theorem lookupRes_removeRes_perm {res : List (Nat × Nat × Nat)} {c t tm : Nat}
    (h : lookupRes res c = some (t, tm)) :
    (res.map (fun r => r.2.1) : Multiset Nat)
      = t ::ₘ ((removeRes res c).map (fun r => r.2.1) : Multiset Nat) := by
  induction res with
  | nil => simp [lookupRes] at h
  | cons hd tl ih =>
      obtain ⟨c', t', tm'⟩ := hd
      by_cases hc : c' = c
      · simp [lookupRes, hc] at h
        simp [removeRes, hc, h.1]
      · simp [lookupRes, hc] at h
        simp only [removeRes, if_neg hc, List.map_cons]
        rw [← Multiset.cons_coe, ← Multiset.cons_coe, ih h]
        exact Multiset.cons_swap _ _ _

/-! ### Pool-preservation lemmas -/

theorem dropLast_append_getLast? {l : List Nat} {t : Nat}
    (h : l.getLast? = some t) : l.dropLast ++ [t] = l := by
  induction l with
  | nil => simp at h
  | cons x tl ih =>
      cases tl with
      | nil => simp at h; simp [h]
      | cons y tl' =>
          rw [List.getLast?_cons_cons] at h
          simpa using ih h

theorem allocate_multiset (db : List Nat) (k : Nat) :
    ((Database.allocate db k).1 : Multiset Nat)
      + ((Database.allocate db k).2 : Multiset Nat) = (db : Multiset Nat) := by
  have h := Database.allocate_append db k
  calc ((Database.allocate db k).1 : Multiset Nat)
        + ((Database.allocate db k).2 : Multiset Nat)
      = ((Database.allocate db k).2 : Multiset Nat)
        + ((Database.allocate db k).1 : Multiset Nat) := add_comm _ _
    _ = (((Database.allocate db k).2 ++ (Database.allocate db k).1 : List Nat)
          : Multiset Nat) := by rw [Multiset.coe_add]
    _ = (db : Multiset Nat) := by rw [h]

theorem drainQueue_pool (now timeout : Nat) (status : ServerStatus) :
    ∀ (q : List (Nat × Nat)) (res : List (Nat × Nat × Nat)) (tk db : List Nat),
    ((Server.drainQueue now timeout status q res tk db).2.2.1 : Multiset Nat)
      + ((Server.drainQueue now timeout status q res tk db).2.1.map
          (fun r => r.2.1) : Multiset Nat)
      + ((Server.drainQueue now timeout status q res tk db).2.2.2 : Multiset Nat)
    = (tk : Multiset Nat) + (res.map (fun r => r.2.1) : Multiset Nat)
      + (db : Multiset Nat) := by
  intro q
  induction q with
  | nil => intro res tk db; rfl
  | cons e rest ih =>
      intro res tk db
      obtain ⟨c, tm⟩ := e
      by_cases hle : now - tm ≤ timeout
      · simp [Server.drainQueue, hle]
      · rw [show Server.drainQueue now timeout status ((c, tm) :: rest) res tk db
              = (match lookupRes res c with
                 | some (ticket, tm') =>
                     if tm' = tm then
                       if status = ServerStatus.active then
                         Server.drainQueue now timeout status rest
                           (removeRes res c) (tk ++ [ticket]) db
                       else
                         Server.drainQueue now timeout status rest
                           (removeRes res c) tk (db ++ [ticket])
                     else Server.drainQueue now timeout status rest res tk db
                 | none => Server.drainQueue now timeout status rest res tk db)
            from by simp [Server.drainQueue, hle]]
        match hlk : lookupRes res c with
        | none => simpa using ih res tk db
        | some (ticket, tm') =>
            by_cases htm : tm' = tm
            · have hperm := lookupRes_removeRes_perm hlk
              subst htm
              by_cases hact : status = ServerStatus.active
              · subst hact
                simp only [eq_self_iff_true, if_true]
                rw [ih (removeRes res c) (tk ++ [ticket]) db, hperm]
                ext a
                by_cases hat : a = ticket
                · simp [hat, Multiset.count_cons, List.count_append]
                · simp [hat, Multiset.count_cons, List.count_append]
              · simp only [eq_self_iff_true, if_true, if_neg hact]
                rw [ih (removeRes res c) tk (db ++ [ticket]), hperm]
                ext a
                by_cases hat : a = ticket
                · simp [hat, Multiset.count_cons, List.count_append]
                  omega
                · simp [hat, Multiset.count_cons, List.count_append]
            · simp only [htm, if_false]
              simpa using ih res tk db

/-- The timeout pass moves tickets around but never creates or destroys
them. -/
theorem remove_timeouted_pool (now : Nat) (s : Server) (db : List Nat) :
    wpool (Server.remove_timeouted_reservations now s db).1
      + ((Server.remove_timeouted_reservations now s db).2 : Multiset Nat)
    = wpool s + (db : Multiset Nat) := by
  have h := drainQueue_pool now s.timeout s.status s.timeout_queue s.reserved
    s.tickets db
  unfold Server.remove_timeouted_reservations wpool
  exact h

theorem process_reservation_pool (batchSize : Nat → Nat)
    (hb : ∀ n, 0 < n → 0 < batchSize n) (now c : Nat)
    (s : Server) (db : List Nat) :
    wpool (Server.processReservationWith batchSize now c s db).1
      + ((Server.processReservationWith batchSize now c s db).2.1 : Multiset Nat)
    = wpool s + (db : Multiset Nat) := by
  unfold Server.processReservationWith
  by_cases h1 : containsRes s.reserved c
  · simp [h1]
  · by_cases h2 : s.status = ServerStatus.terminating
    · simp [h1, h2]
    · simp only [h1, h2, if_false, Bool.false_eq_true]
      by_cases h3 : s.tickets.isEmpty ∧ Database.get_num_available db = 0
      · simp [h3]
      · simp only [h3, if_false]
        have hlook : lookupRes s.reserved c = none := by
          unfold containsRes at h1
          cases hl : lookupRes s.reserved c with
          | none => rfl
          | some v => rw [hl] at h1; simp at h1
        have hrm : removeRes s.reserved c = s.reserved :=
          lookupRes_none_removeRes hlook
        by_cases h4 : s.tickets.isEmpty
        · simp only [h4, if_true]
          cases hg : (s.tickets
              ++ (Database.allocate db (batchSize db.length)).1).getLast? with
          | none =>
              exfalso
              rw [List.getLast?_eq_none_iff] at hg
              have hdb : 0 < db.length := by
                rcases Nat.eq_zero_or_pos db.length with h0 | h0
                · exact absurd ⟨h4, h0⟩ h3
                · exact h0
              have hlen : 0 < (Database.allocate db (batchSize db.length)).1.length := by
                rw [Database.allocate_fst_length]
                have := hb db.length hdb
                omega
              have hlen2 : s.tickets.length
                  + (Database.allocate db (batchSize db.length)).1.length = 0 := by
                rw [← List.length_append, hg]; rfl
              omega
          | some ticket =>
              simp only [hg]
              have hsplit := dropLast_append_getLast? hg
              unfold wpool insertRes
              rw [hrm]
              simp only [List.map_cons]
              have halloc := allocate_multiset db (batchSize db.length)
              ext a
              have h5 := congrArg (Multiset.count a) halloc
              have h6 := congrArg (List.count a) hsplit
              by_cases hat : a = ticket <;>
                [skip; skip] <;>
                simp [hat, Multiset.count_add, List.count_append,
                  Multiset.count_cons] at h5 h6 ⊢ <;>
                omega
        · simp only [h4, if_false, Bool.false_eq_true]
          cases hg : s.tickets.getLast? with
          | none =>
              exfalso
              rw [List.getLast?_eq_none_iff] at hg
              simp [hg] at h4
          | some ticket =>
              simp only [hg]
              have hsplit := dropLast_append_getLast? hg
              unfold wpool insertRes
              rw [hrm]
              simp only [List.map_cons]
              ext a
              have h6 := congrArg (List.count a) hsplit
              by_cases hat : a = ticket <;>
                simp [hat, Multiset.count_add, List.count_append,
                  Multiset.count_cons] at h6 ⊢ <;>
                omega

theorem process_buy_pool (c : Nat) (t? : Option Nat) (s : Server)
    (db : List Nat) :
    wpool (Server.process_buy c t? s db).1
      + ((Server.process_buy c t? s db).2.1 : Multiset Nat)
      + (match (Server.process_buy c t? s db).2.2 with
         | .int t => ({t} : Multiset Nat) | _ => 0)
    = wpool s + (db : Multiset Nat) := by
  unfold Server.process_buy
  match t? with
  | none => simp
  | some ticket =>
      match hlk : lookupRes s.reserved c with
      | none => simp
      | some (rt, tm) =>
          by_cases hrt : rt = ticket
          · subst hrt
            have hperm := lookupRes_removeRes_perm hlk
            simp only [if_pos rfl]
            unfold wpool
            rw [hperm]
            ext a
            by_cases hat : a = rt <;>
              simp [hat, Multiset.count_cons, List.count_append] <;> omega
          · simp [hrt]

theorem process_cancel_pool (c : Nat) (t? : Option Nat) (s : Server)
    (db : List Nat) :
    wpool (Server.process_cancel c t? s db).1
      + ((Server.process_cancel c t? s db).2.1 : Multiset Nat)
    = wpool s + (db : Multiset Nat) := by
  unfold Server.process_cancel
  match t? with
  | none => simp
  | some ticket =>
      match hlk : lookupRes s.reserved c with
      | none => simp
      | some (rt, tm) =>
          by_cases hrt : rt = ticket
          · subst hrt
            have hperm := lookupRes_removeRes_perm hlk
            simp only [if_pos rfl]
            by_cases hact : s.status = ServerStatus.active <;>
              · unfold wpool
                rw [hperm]
                simp only [hact, Database.deallocate]
                ext a
                by_cases hat : a = rt <;>
                  simp [hat, Multiset.count_cons, List.count_append] <;> omega
          · simp [hrt]

theorem deactivate_pool (s : Server) (db : List Nat) :
    wpool (Server.deactivate s db).1 + ((Server.deactivate s db).2 : Multiset Nat)
    = wpool s + (db : Multiset Nat) := by
  unfold Server.deactivate
  by_cases h1 : s.status = ServerStatus.shutdown
  · simp [h1]
  · by_cases h2 : s.tickets.isEmpty
    · have : s.tickets = [] := by simpa [List.isEmpty_iff] using h2
      simp [h1, h2, wpool, this]
    · unfold wpool Database.deallocate
      simp only [h1, h2, if_false, Bool.false_eq_true]
      ext a
      simp [List.count_append]
      omega

theorem server_new_pool (timeout : Nat) (db : List Nat) :
    wpool (Server.new timeout db).1 + ((Server.new timeout db).2 : Multiset Nat)
    = (db : Multiset Nat) := by
  unfold Server.new wpool
  simp only [List.map_nil]
  have := allocate_multiset db (Server.batchSizeStd (Database.get_num_available db))
  simpa using this

theorem send_tickets_pool (now tickets : Nat) (s : Server) (db : List Nat) :
    wpool (Server.send_tickets now tickets s db).1
      + ((Server.send_tickets now tickets s db).2.1 : Multiset Nat)
    = wpool s + (db : Multiset Nat) := by
  unfold Server.send_tickets
  have h := remove_timeouted_pool now s db
  unfold wpool at h ⊢
  simpa using h

theorem sum_map_set (l : List Server) (x : Server) :
    ∀ (i : Nat) (h : i < l.length),
    ((l.set i x).map wpool).sum + wpool (l.get ⟨i, h⟩)
      = (l.map wpool).sum + wpool x := by
  induction l with
  | nil => intro i h; simp at h
  | cons hd tl ih =>
      intro i h
      cases i with
      | zero =>
          simp [List.set]
          ext a
          simp [Multiset.count_add]
          omega
      | succ n =>
          have hn : n < tl.length := by simpa using h
          have := ih n hn
          simp only [List.set, List.map_cons, List.sum_cons]
          have hget : (hd :: tl).get ⟨n + 1, h⟩ = tl.get ⟨n, hn⟩ := rfl
          rw [hget]
          ext a
          have hcnt := congrArg (Multiset.count a) this
          simp [Multiset.count_add] at hcnt ⊢
          omega

theorem batchSizeStd_pos {n : Nat} (h : 0 < n) : 0 < Server.batchSizeStd n := by
  unfold Server.batchSizeStd
  have := Nat.sqrt_pos.mpr h
  omega

theorem process_low_priority_pool (now c : Nat) (op : Server.CustomerOp)
    (s : Server) (db : List Nat) :
    wpool (Server.process_low_priority now c op s db).1
      + ((Server.process_low_priority now c op s db).2.1 : Multiset Nat)
      + (soldOf op (Server.process_low_priority now c op s db).2.2 : Multiset Nat)
    = wpool s + (db : Multiset Nat) := by
  unfold Server.process_low_priority
  have hrt := remove_timeouted_pool now s db
  cases op with
  | numAvailableTickets => simpa [Server.dispatchCustomer, soldOf] using hrt
  | reserveTicket =>
      have h := process_reservation_pool Server.batchSizeStd
        (fun n hn => batchSizeStd_pos hn) now c
        (Server.remove_timeouted_reservations now s db).1
        (Server.remove_timeouted_reservations now s db).2
      simp only [Server.dispatchCustomer, Server.process_reservation]
      cases hr : (Server.processReservationWith Server.batchSizeStd now c
          (Server.remove_timeouted_reservations now s db).1
          (Server.remove_timeouted_reservations now s db).2).2.2 <;>
        · simp only [soldOf]
          rw [← hrt, ← h]
          simp
  | buyTicket t? =>
      have h := process_buy_pool c t?
        (Server.remove_timeouted_reservations now s db).1
        (Server.remove_timeouted_reservations now s db).2
      simp only [Server.dispatchCustomer]
      cases hr : (Server.process_buy c t?
          (Server.remove_timeouted_reservations now s db).1
          (Server.remove_timeouted_reservations now s db).2).2.2 <;>
        · rw [hr] at h
          simp only [soldOf]
          rw [← hrt, ← h]
          simp
  | abortPurchase t? =>
      have h := process_cancel_pool c t?
        (Server.remove_timeouted_reservations now s db).1
        (Server.remove_timeouted_reservations now s db).2
      simp only [Server.dispatchCustomer]
      cases hr : (Server.process_cancel c t?
          (Server.remove_timeouted_reservations now s db).1
          (Server.remove_timeouted_reservations now s db).2).2.2 <;>
        · simp only [soldOf]
          rw [← hrt, ← h]
          simp

theorem updateWorker_pool (σ : Sys) (w : Nat)
    (f : Server → List Nat → Server × List Nat × List Nat)
    (hf : ∀ s db, wpool (f s db).1 + ((f s db).2.1 : Multiset Nat)
            + ((f s db).2.2 : Multiset Nat)
          = wpool s + (db : Multiset Nat)) :
    syspool (updateWorker σ w f) = syspool σ := by
  unfold updateWorker
  cases hw : σ.workers[w]? with
  | none => rfl
  | some s =>
      have hlt : w < σ.workers.length := by
        by_contra hge
        rw [List.getElem?_eq_none (by omega)] at hw
        exact Option.noConfusion hw
      have hs : σ.workers.get ⟨w, hlt⟩ = s := by
        have := List.getElem?_eq_getElem hlt
        rw [hw] at this
        simpa using this.symm
      unfold syspool
      have hset := sum_map_set σ.workers (f s σ.db).1 w hlt
      rw [hs] at hset
      have hloc := hf s σ.db
      ext a
      have h1 := congrArg (Multiset.count a) hset
      have h2 := congrArg (Multiset.count a) hloc
      simp [Multiset.count_add, List.count_append] at h1 h2 ⊢
      omega

/-- Every system operation preserves the ticket pool as a multiset. -/
theorem sysStep_pool (σ : Sys) (op : Op) :
    syspool (sysStep σ op) = syspool σ := by
  cases op with
  | customer w now customer cop =>
      exact updateWorker_pool σ w _ (fun s db => by
        have := process_low_priority_pool now customer cop s db
        simpa using this)
  | estimate w now tickets =>
      exact updateWorker_pool σ w _ (fun s db => by
        have := send_tickets_pool now tickets s db
        simpa using this)
  | activate w =>
      exact updateWorker_pool σ w _ (fun s db => by
        have : wpool (Server.activate s) = wpool s := by
          unfold Server.activate wpool
          split <;> rfl
        simpa [this] using rfl)
  | deactivate w =>
      exact updateWorker_pool σ w _ (fun s db => by
        have := deactivate_pool s db
        simpa using this)
  | shutdown w =>
      exact updateWorker_pool σ w _ (fun s db => by
        have : wpool { s with status := ServerStatus.shutdown } = wpool s := rfl
        simpa [this] using rfl)
  | spawn timeout =>
      have h := server_new_pool timeout σ.db
      unfold sysStep syspool
      simp only [List.map_append, List.map_cons, List.map_nil, List.sum_append,
        List.sum_cons, List.sum_nil]
      ext a
      have h1 := congrArg (Multiset.count a) h
      simp [Multiset.count_add] at h1 ⊢
      omega

theorem syspool_reachable {N : Nat} {σ : Sys} (h : Reachable N σ) :
    syspool σ = Multiset.range N := by
  induction h with
  | init =>
      unfold syspool Database.new
      simp [Multiset.range]
  | step op _ ih => rw [sysStep_pool, ih]

theorem card_sum_wpool (l : List Server) :
    ((l.map wpool).sum).card
      = (l.map fun w => w.tickets.length).sum
        + (l.map fun w => w.reserved.length).sum := by
  induction l with
  | nil => simp
  | cons hd tl ih =>
      simp only [List.map_cons, List.sum_cons, Multiset.card_add, ih, wpool]
      simp
      omega

/-- Claim C1: in every reachable system state, each ticket id in `[0, N)`
lies in exactly one of the database's unallocated pool, some worker's local
stock, some worker's reservation table, and the multiset of tickets from
successful Buy responses (and no other ticket id occurs anywhere); hence
`database.available() + Σ local_stock + Σ reservations + sold = N` is
preserved by every operation, and no ticket id appears in two successful Buy
responses. -/
theorem ticket_conservation (N : Nat) (σ : Sys) (h : Reachable N σ) :
    syspool σ = Multiset.range N ∧
    (∀ t, t < N → (syspool σ).count t = 1) ∧
    (∀ t, N ≤ t → (syspool σ).count t = 0) ∧
    Database.get_num_available σ.db
      + (σ.workers.map fun w => w.tickets.length).sum
      + (σ.workers.map fun w => w.reserved.length).sum
      + σ.sold.length = N ∧
    σ.sold.Nodup := by
  have hpool := syspool_reachable h
  have hcount1 : ∀ t, t < N → (syspool σ).count t = 1 := by
    intro t ht
    rw [hpool]
    exact Multiset.count_eq_one_of_mem (Multiset.nodup_range N)
      (Multiset.mem_range.mpr ht)
  have hcount0 : ∀ t, N ≤ t → (syspool σ).count t = 0 := by
    intro t ht
    rw [hpool]
    exact Multiset.count_eq_zero_of_not_mem
      (fun hm => absurd (Multiset.mem_range.mp hm) (by omega))
  refine ⟨hpool, hcount1, hcount0, ?_, ?_⟩
  · have hcard := congrArg Multiset.card hpool
    rw [Multiset.card_range] at hcard
    unfold syspool at hcard
    simp only [Multiset.card_add, Multiset.coe_card, card_sum_wpool] at hcard
    unfold Database.get_num_available
    omega
  · rw [← Multiset.coe_nodup, Multiset.nodup_iff_count_le_one]
    intro a
    have hle : (σ.sold : Multiset Nat) ≤ syspool σ := by
      unfold syspool
      exact le_add_self
    have := Multiset.count_le_of_le a hle
    by_cases ha : a < N
    · have := hcount1 a ha
      omega
    · have := hcount0 a (by omega)
      omega

/-- Witness for C1: the conservation theorem applied to a concrete reachable
state after a spawn, a reservation and a purchase. -/
theorem ticket_conservation_witness :
    Reachable 3 sysTraceC1 ∧ syspool sysTraceC1 = Multiset.range 3 ∧
      sysTraceC1.sold.Nodup := by
  have hr : Reachable 3 sysTraceC1 :=
    Reachable.step _ (Reachable.step _ (Reachable.step _ Reachable.init))
  exact ⟨hr, (ticket_conservation 3 sysTraceC1 hr).1,
    (ticket_conservation 3 sysTraceC1 hr).2.2.2.2⟩

/-- Witness for C3 at a concrete pool. -/
theorem database_allocate_deallocate_spec_witness :
    Database.allocate [0, 1, 2, 3, 4] 2 = allocateSpec [0, 1, 2, 3, 4] 2 ∧
    ([0, 1, 2, 3, 4] : List Nat).length ≤ 7 ∧
    Database.allocate [0, 1, 2, 3, 4] 7 = ([0, 1, 2, 3, 4], []) ∧
    Database.get_num_available (Database.deallocate [0, 1, 2] [9, 8])
      = Database.get_num_available [0, 1, 2] + 2 := by
  refine ⟨(database_allocate_deallocate_spec [0, 1, 2, 3, 4] [] 2).1, by decide,
    (database_allocate_deallocate_spec [0, 1, 2, 3, 4] [] 7).2.1 (by decide), ?_⟩
  have := (database_allocate_deallocate_spec [0, 1, 2] [9, 8] 0).2.2.2.2
  simpa using this

theorem drainQueue_eq_spec (now timeout : Nat) (status : ServerStatus) :
    ∀ (q : List (Nat × Nat)) (res : List (Nat × Nat × Nat)) (tk db : List Nat),
    Server.drainQueue now timeout status q res tk db
      = (q.dropWhile (Server.expired now timeout),
         evictExpired now timeout status q res tk db) := by
  intro q
  induction q with
  | nil => intro res tk db; rfl
  | cons e rest ih =>
      intro res tk db
      obtain ⟨c, tm⟩ := e
      by_cases hle : now - tm ≤ timeout
      · have hexp : Server.expired now timeout (c, tm) = false := by
          simp [Server.expired]; omega
        simp [Server.drainQueue, hle, evictExpired, List.dropWhile_cons,
          List.takeWhile_cons, hexp]
      · have hexp : Server.expired now timeout (c, tm) = true := by
          simp [Server.expired]; omega
        rw [show Server.drainQueue now timeout status ((c, tm) :: rest) res tk db
              = (match lookupRes res c with
                 | some (ticket, tm') =>
                     if tm' = tm then
                       if status = ServerStatus.active then
                         Server.drainQueue now timeout status rest
                           (removeRes res c) (tk ++ [ticket]) db
                       else
                         Server.drainQueue now timeout status rest
                           (removeRes res c) tk (db ++ [ticket])
                     else Server.drainQueue now timeout status rest res tk db
                 | none => Server.drainQueue now timeout status rest res tk db)
            from by simp [Server.drainQueue, hle]]
        have hq : ((c, tm) :: rest).dropWhile (Server.expired now timeout)
            = rest.dropWhile (Server.expired now timeout) := by
          simp [List.dropWhile_cons, hexp]
        have hfold : evictExpired now timeout status ((c, tm) :: rest) res tk db
            = evictExpired now timeout status rest
                (evictEntry status (res, tk, db) (c, tm)).1
                (evictEntry status (res, tk, db) (c, tm)).2.1
                (evictEntry status (res, tk, db) (c, tm)).2.2 := by
          simp [evictExpired, List.takeWhile_cons, hexp]
        rw [hq, hfold]
        match hlk : lookupRes res c with
        | none =>
            simp only [evictEntry, hlk]
            exact ih res tk db
        | some (ticket, tm') =>
            by_cases htm : tm' = tm
            · by_cases hact : status = ServerStatus.active
              · subst hact
                simp only [evictEntry, hlk, htm, if_pos rfl,
                  eq_self_iff_true, if_true]
                exact ih (removeRes res c) (tk ++ [ticket]) db
              · simp only [evictEntry, hlk, htm, hact, eq_self_iff_true,
                  if_true, if_false, Bool.false_eq_true]
                exact ih (removeRes res c) tk (db ++ [ticket])
            · simp only [evictEntry, hlk, htm, if_false]
              exact ih res tk db

theorem dropWhile_expired_eq_filter (now timeout : Nat) :
    ∀ (q : List (Nat × Nat)), q.Pairwise (fun a b => a.2 ≤ b.2) →
    q.dropWhile (Server.expired now timeout)
      = q.filter (fun e => !Server.expired now timeout e) := by
  intro q
  induction q with
  | nil => intro _; rfl
  | cons e rest ih =>
      intro hp
      rw [List.pairwise_cons] at hp
      by_cases hexp : Server.expired now timeout e = true
      · simp [List.dropWhile_cons, List.filter_cons, hexp, ih hp.2]
      · have hexp' : Server.expired now timeout e = false := by
          simpa using hexp
        have hall : ∀ x ∈ rest, (!Server.expired now timeout x) = true := by
          intro x hx
          have hle := hp.1 x hx
          simp [Server.expired] at hexp' ⊢
          omega
        simp [List.dropWhile_cons, hexp', List.filter_cons]
        exact (List.filter_eq_self.mpr hall).symm

theorem takeWhile_expired_eq_filter (now timeout : Nat) :
    ∀ (q : List (Nat × Nat)), q.Pairwise (fun a b => a.2 ≤ b.2) →
    q.takeWhile (Server.expired now timeout)
      = q.filter (Server.expired now timeout) := by
  intro q
  induction q with
  | nil => intro _; rfl
  | cons e rest ih =>
      intro hp
      rw [List.pairwise_cons] at hp
      by_cases hexp : Server.expired now timeout e = true
      · simp [List.takeWhile_cons, List.filter_cons, hexp, ih hp.2]
      · have hexp' : Server.expired now timeout e = false := by
          simpa using hexp
        have hall : ∀ x ∈ rest, Server.expired now timeout x = false := by
          intro x hx
          have hle := hp.1 x hx
          simp [Server.expired] at hexp' ⊢
          omega
        have : rest.filter (Server.expired now timeout) = [] := by
          rw [List.filter_eq_nil_iff]
          intro a ha
          simp [hall a ha]
        simp [List.takeWhile_cons, hexp', List.filter_cons, this]

/-- Claim C2: the timeout-expiration pass (run at the start of every customer
operation and of every Estimate, in both the standard and the bonus worker)
removes from the head of `timeout_queue` exactly the entries strictly older
than the configured timeout; each removed entry whose customer still holds a
live reservation with the identical `created_at` is evicted, its ticket
appended to `local_stock` when the worker is Active and deallocated to the
database otherwise, while removed entries whose `created_at` no longer
matches cause no change (`evictEntry` is that case analysis, `evictExpired`
its fold over the drained prefix); and if `reservations` ends empty while
the state is Terminating, the state becomes Terminated.  The hypothesis `hq`
is the FIFO property of `timeout_queue`: entries carry non-decreasing
`created_at` stamps (every push uses the then-current instant). -/
theorem timeout_expiration_spec (now : Nat) (s : Server) (db : List Nat)
    (hq : s.timeout_queue.Pairwise (fun a b => a.2 ≤ b.2)) :
    (Server.remove_timeouted_reservations now s db).1.timeout_queue
      = s.timeout_queue.filter (fun e => !Server.expired now s.timeout e) ∧
    s.timeout_queue.takeWhile (Server.expired now s.timeout)
      = s.timeout_queue.filter (Server.expired now s.timeout) ∧
    ((Server.remove_timeouted_reservations now s db).1.reserved,
     (Server.remove_timeouted_reservations now s db).1.tickets,
     (Server.remove_timeouted_reservations now s db).2)
      = evictExpired now s.timeout s.status s.timeout_queue s.reserved
          s.tickets db ∧
    (Server.remove_timeouted_reservations now s db).1.status
      = (if (Server.remove_timeouted_reservations now s db).1.reserved.isEmpty
             ∧ s.status = ServerStatus.terminating
         then ServerStatus.terminated else s.status) ∧
    (∀ c op, Server.process_low_priority now c op s db
      = Server.dispatchCustomer now c op
          (Server.remove_timeouted_reservations now s db).1
          (Server.remove_timeouted_reservations now s db).2) ∧
    (∀ c op, Server.process_low_priority_bonus now c op s db
      = Server.dispatchCustomerBonus now c op
          (Server.remove_timeouted_reservations now s db).1
          (Server.remove_timeouted_reservations now s db).2) ∧
    (∀ t, Server.send_tickets now t s db
      = ({ (Server.remove_timeouted_reservations now s db).1 with
             estimate := t },
         (Server.remove_timeouted_reservations now s db).2,
         (Server.remove_timeouted_reservations now s db).1.tickets.length)) := by
  have hdq := drainQueue_eq_spec now s.timeout s.status s.timeout_queue
    s.reserved s.tickets db
  refine ⟨?_, takeWhile_expired_eq_filter now s.timeout s.timeout_queue hq,
    ?_, ?_, fun c op => rfl, fun c op => rfl, fun t => rfl⟩
  · show (Server.drainQueue now s.timeout s.status s.timeout_queue s.reserved
        s.tickets db).1 = _
    rw [hdq]
    exact dropWhile_expired_eq_filter now s.timeout s.timeout_queue hq
  · show ((Server.drainQueue now s.timeout s.status s.timeout_queue s.reserved
        s.tickets db).2.1,
      (Server.drainQueue now s.timeout s.status s.timeout_queue s.reserved
        s.tickets db).2.2.1,
      (Server.drainQueue now s.timeout s.status s.timeout_queue s.reserved
        s.tickets db).2.2.2) = _
    rw [hdq]
  · rfl

/-- Witness for C2 at `serverC2`, logical time 4. -/
theorem timeout_expiration_spec_witness :
    (serverC2.timeout_queue.Pairwise (fun a b => a.2 ≤ b.2)) ∧
    (Server.remove_timeouted_reservations 4 serverC2 []).1.timeout_queue
      = serverC2.timeout_queue.filter
          (fun e => !Server.expired 4 serverC2.timeout e) ∧
    ((Server.remove_timeouted_reservations 4 serverC2 []).1.reserved,
     (Server.remove_timeouted_reservations 4 serverC2 []).1.tickets,
     (Server.remove_timeouted_reservations 4 serverC2 []).2)
      = evictExpired 4 serverC2.timeout serverC2.status serverC2.timeout_queue
          serverC2.reserved serverC2.tickets [] :=
  ⟨by decide, (timeout_expiration_spec 4 serverC2 [] (by decide)).1,
    (timeout_expiration_spec 4 serverC2 [] (by decide)).2.2.1⟩

theorem processReservationWith_success (batchSize : Nat → Nat)
    (hb : ∀ n, 0 < n → 0 < batchSize n) (now c : Nat) (s : Server)
    (db : List Nat)
    (h1 : lookupRes s.reserved c = none)
    (h2 : s.status ≠ ServerStatus.terminating)
    (h3 : ¬(s.tickets = [] ∧ db = [])) :
    ∃ t, refilledStock batchSize s db
          = (refilledStock batchSize s db).dropLast ++ [t] ∧
        Server.processReservationWith batchSize now c s db
          = ({ s with
               tickets := (refilledStock batchSize s db).dropLast,
               reserved := insertRes s.reserved c t now,
               timeout_queue := s.timeout_queue ++ [(c, now)] },
             refilledDb batchSize s db, Response.int t) := by
  have hcont : containsRes s.reserved c = false := by
    unfold containsRes; rw [h1]; rfl
  have hnsold : ¬(s.tickets.isEmpty = true ∧ Database.get_num_available db = 0) := by
    rintro ⟨he, hz⟩
    exact h3 ⟨List.isEmpty_iff.mp he,
      List.length_eq_zero.mp hz⟩
  unfold Server.processReservationWith
  simp only [hcont, Bool.false_eq_true, if_false, h2, hnsold]
  by_cases h4 : s.tickets.isEmpty
  · have hdb : 0 < db.length := by
      rcases Nat.eq_zero_or_pos db.length with h0 | h0
      · exact absurd ⟨List.isEmpty_iff.mp h4, List.length_eq_zero.mp h0⟩ h3
      · exact h0
    cases hg : (s.tickets
        ++ (Database.allocate db (batchSize db.length)).1).getLast? with
    | none =>
        exfalso
        rw [List.getLast?_eq_none_iff] at hg
        have hlen : 0 < (Database.allocate db (batchSize db.length)).1.length := by
          rw [Database.allocate_fst_length]
          have := hb db.length hdb
          omega
        have hlen2 : s.tickets.length
            + (Database.allocate db (batchSize db.length)).1.length = 0 := by
          rw [← List.length_append, hg]; rfl
        omega
    | some t =>
        refine ⟨t, ?_, ?_⟩
        · unfold refilledStock
          simp only [h4, if_true]
          exact (dropLast_append_getLast? hg).symm
        · unfold refilledStock refilledDb
          simp [h4, hg]
  · cases hg : s.tickets.getLast? with
    | none =>
        exfalso
        rw [List.getLast?_eq_none_iff] at hg
        simp [hg] at h4
    | some t =>
        refine ⟨t, ?_, ?_⟩
        · unfold refilledStock
          simp only [h4, Bool.false_eq_true, if_false]
          exact (dropLast_append_getLast? hg).symm
        · unfold refilledStock refilledDb
          simp [h4, hg]

theorem batchSizeBonus_pos {n : Nat} (h : 0 < n) : 0 < Server.batchSizeBonus n :=
  Nat.sqrt_pos.mpr h

/-- Claim C4: a ReserveTicket request from a customer with no reservation, on
a worker that is not Terminating, with the local stock or the database
non-empty, pops exactly one ticket from the (possibly refilled) local stock,
inserts customer → (ticket, now) into the reservations, appends
(customer, now) to the timeout queue, and replies with that ticket; the
refill batch never exceeds the database's availability.  Stated for the
standard worker (`Server::process_reservation`) and the bonus worker
(`ServerBonus::process_reservation`), which differ only in the batch-size
formula. -/
theorem reserve_success_spec (now c : Nat) (s : Server) (db : List Nat)
    (h1 : lookupRes s.reserved c = none)
    (h2 : s.status ≠ ServerStatus.terminating)
    (h3 : ¬(s.tickets = [] ∧ db = [])) :
    (∃ t, refilledStock Server.batchSizeStd s db
          = (refilledStock Server.batchSizeStd s db).dropLast ++ [t] ∧
        Server.process_reservation now c s db
          = ({ s with
               tickets := (refilledStock Server.batchSizeStd s db).dropLast,
               reserved := insertRes s.reserved c t now,
               timeout_queue := s.timeout_queue ++ [(c, now)] },
             refilledDb Server.batchSizeStd s db, Response.int t)) ∧
    (∃ t, refilledStock Server.batchSizeBonus s db
          = (refilledStock Server.batchSizeBonus s db).dropLast ++ [t] ∧
        Server.process_reservation_bonus now c s db
          = ({ s with
               tickets := (refilledStock Server.batchSizeBonus s db).dropLast,
               reserved := insertRes s.reserved c t now,
               timeout_queue := s.timeout_queue ++ [(c, now)] },
             refilledDb Server.batchSizeBonus s db, Response.int t)) ∧
    (Database.allocate db (Server.batchSizeStd db.length)).1.length
      ≤ Database.get_num_available db ∧
    (Database.allocate db (Server.batchSizeBonus db.length)).1.length
      ≤ Database.get_num_available db := by
  refine ⟨processReservationWith_success Server.batchSizeStd
      (fun n hn => batchSizeStd_pos hn) now c s db h1 h2 h3,
    processReservationWith_success Server.batchSizeBonus
      (fun n hn => batchSizeBonus_pos hn) now c s db h1 h2 h3, ?_, ?_⟩ <;>
  · rw [Database.allocate_fst_length]
    unfold Database.get_num_available
    omega

/-- Witness for C4: reservation by customer 7 against an empty stock and a
4-ticket database. -/
theorem reserve_success_spec_witness :
    lookupRes serverC4.reserved 7 = none ∧
    serverC4.status ≠ ServerStatus.terminating ∧
    ¬(serverC4.tickets = [] ∧ [0, 1, 2, 3] = ([] : List Nat)) ∧
    (∃ t, refilledStock Server.batchSizeStd serverC4 [0, 1, 2, 3]
          = (refilledStock Server.batchSizeStd serverC4 [0, 1, 2, 3]).dropLast
              ++ [t] ∧
        Server.process_reservation 5 7 serverC4 [0, 1, 2, 3]
          = ({ serverC4 with
               tickets := (refilledStock Server.batchSizeStd serverC4
                 [0, 1, 2, 3]).dropLast,
               reserved := insertRes serverC4.reserved 7 t 5,
               timeout_queue := serverC4.timeout_queue ++ [(7, 5)] },
             refilledDb Server.batchSizeStd serverC4 [0, 1, 2, 3],
             Response.int t)) :=
  ⟨by decide, by decide, by decide,
    (reserve_success_spec 5 7 serverC4 [0, 1, 2, 3] (by decide) (by decide)
      (by decide)).1⟩

theorem processReservationWith_sold_out (batchSize : Nat → Nat)
    (hb : ∀ n, 0 < n → 0 < batchSize n) (now c : Nat) (s : Server)
    (db : List Nat)
    (h1 : lookupRes s.reserved c = none)
    (h2 : s.status ≠ ServerStatus.terminating) :
    ((Server.processReservationWith batchSize now c s db).2.2
        = Response.soldOut ↔ s.tickets = [] ∧ db = []) ∧
    (s.tickets = [] ∧ db = [] →
      Server.processReservationWith batchSize now c s db
        = (s, db, Response.soldOut)) := by
  have hcont : containsRes s.reserved c = false := by
    unfold containsRes; rw [h1]; rfl
  have hempty : s.tickets = [] ∧ db = [] →
      Server.processReservationWith batchSize now c s db
        = (s, db, Response.soldOut) := by
    rintro ⟨ht, hd⟩
    unfold Server.processReservationWith
    simp [hcont, h2, ht, hd, Database.get_num_available]
  refine ⟨⟨?_, fun h => by rw [hempty h]⟩, hempty⟩
  intro hso
  by_contra hne
  obtain ⟨t, _, heq⟩ := processReservationWith_success batchSize hb now c s db
    h1 h2 hne
  rw [heq] at hso
  exact Response.noConfusion hso

/-- Claim C5: a ReserveTicket request from a customer with no reservation on
a worker that is not Terminating is answered SOLD OUT if and only if the
local stock is empty and the database holds zero tickets; in that case the
worker state and the database are returned unchanged.  Stated for both the
standard and the bonus worker. -/
theorem reserve_sold_out_spec (now c : Nat) (s : Server) (db : List Nat)
    (h1 : lookupRes s.reserved c = none)
    (h2 : s.status ≠ ServerStatus.terminating) :
    ((Server.process_reservation now c s db).2.2 = Response.soldOut
       ↔ s.tickets = [] ∧ db = []) ∧
    ((Server.process_reservation_bonus now c s db).2.2 = Response.soldOut
       ↔ s.tickets = [] ∧ db = []) ∧
    (s.tickets = [] ∧ db = [] →
       Server.process_reservation now c s db = (s, db, Response.soldOut) ∧
       Server.process_reservation_bonus now c s db
         = (s, db, Response.soldOut)) := by
  have hstd := processReservationWith_sold_out Server.batchSizeStd
    (fun n hn => batchSizeStd_pos hn) now c s db h1 h2
  have hbon := processReservationWith_sold_out Server.batchSizeBonus
    (fun n hn => batchSizeBonus_pos hn) now c s db h1 h2
  exact ⟨hstd.1, hbon.1, fun h => ⟨hstd.2 h, hbon.2 h⟩⟩

/-- Witness for C5: with both the stock and the database empty, the response
is SOLD OUT and nothing changes. -/
theorem reserve_sold_out_spec_witness :
    lookupRes serverC5.reserved 3 = none ∧
    serverC5.status ≠ ServerStatus.terminating ∧
    ((Server.process_reservation 0 3 serverC5 []).2.2 = Response.soldOut
       ↔ serverC5.tickets = [] ∧ ([] : List Nat) = []) ∧
    Server.process_reservation 0 3 serverC5 []
      = (serverC5, [], Response.soldOut) :=
  ⟨by decide, by decide,
    (reserve_sold_out_spec 0 3 serverC5 [] (by decide) (by decide)).1,
    ((reserve_sold_out_spec 0 3 serverC5 [] (by decide) (by decide)).2.2
      ⟨rfl, rfl⟩).1⟩

theorem lookupRes_removeRes_ne (res : List (Nat × Nat × Nat)) {c c' : Nat}
    (h : c' ≠ c) : lookupRes (removeRes res c) c' = lookupRes res c' := by
  induction res with
  | nil => rfl
  | cons hd tl ih =>
      obtain ⟨a, t, tm⟩ := hd
      by_cases hac : a = c
      · have hac' : a ≠ c' := by omega
        simp [removeRes, lookupRes, hac, hac', Ne.symm h]
      · by_cases hac' : a = c'
        · simp [removeRes, lookupRes, hac, hac', h]
        · simp [removeRes, lookupRes, hac, hac', ih]

theorem lookupRes_insertRes (res : List (Nat × Nat × Nat)) (c t tm c' : Nat) :
    lookupRes (insertRes res c t tm) c'
      = if c = c' then some (t, tm) else lookupRes res c' := by
  unfold insertRes
  by_cases hc : c = c'
  · simp [lookupRes, hc]
  · have : c' ≠ c := fun h => hc h.symm
    simp [lookupRes, hc, lookupRes_removeRes_ne _ this]

theorem process_buy_error (c : Nat) (t? : Option Nat) (s : Server)
    (db : List Nat) (hbad : badBuyInput c t? s.reserved) :
    ∃ msg, Server.process_buy c t? s db = (s, db, Response.err msg) := by
  rcases hbad with h | h | ⟨rt, tm, t, ht, hlk, hne⟩
  · exact ⟨"Our error: No ticket id given.", by simp [Server.process_buy, h]⟩
  · cases t? with
    | none =>
        exact ⟨"Our error: No ticket id given.", by simp [Server.process_buy]⟩
    | some t =>
        exact ⟨"Our error: No reservation for buy request.",
          by simp [Server.process_buy, h]⟩
  · subst ht
    exact ⟨"Our error: Reservation not made for that ticket for buy request.",
      by simp [Server.process_buy, hlk, hne]⟩

theorem process_cancel_error (c : Nat) (t? : Option Nat) (s : Server)
    (db : List Nat) (hbad : badBuyInput c t? s.reserved) :
    ∃ msg, Server.process_cancel c t? s db = (s, db, Response.err msg) := by
  rcases hbad with h | h | ⟨rt, tm, t, ht, hlk, hne⟩
  · exact ⟨"Our error: No ticket id given.", by simp [Server.process_cancel, h]⟩
  · cases t? with
    | none =>
        exact ⟨"Our error: No ticket id given.",
          by simp [Server.process_cancel]⟩
    | some t =>
        exact ⟨"Our error: No reservation for cancel request.",
          by simp [Server.process_cancel, h]⟩
  · subst ht
    exact
      ⟨"Our error: Reservation not made for that ticket for cancel request.",
        by simp [Server.process_cancel, hlk, hne]⟩

theorem process_buy_bonus_error (c : Nat) (t? : Option Nat) (s : Server)
    (db : List Nat) (hbad : badBuyInput c t? s.reserved) :
    (∃ msg, (Server.process_buy_bonus c t? s db).2 = (db, Response.err msg)) ∧
    (Server.process_buy_bonus c t? s db).1.tickets = s.tickets ∧
    (Server.process_buy_bonus c t? s db).1.status = s.status ∧
    (Server.process_buy_bonus c t? s db).1.timeout_queue = s.timeout_queue ∧
    (∀ c', lookupRes (Server.process_buy_bonus c t? s db).1.reserved c'
        = lookupRes s.reserved c') := by
  rcases hbad with h | h | ⟨rt, tm, t, ht, hlk, hne⟩
  · subst h
    exact ⟨⟨"Our error: No ticket id given.", rfl⟩, rfl, rfl, rfl,
      fun c' => rfl⟩
  · cases t? with
    | none =>
        exact ⟨⟨"Our error: No ticket id given.", rfl⟩, rfl, rfl, rfl,
          fun c' => rfl⟩
    | some t =>
        refine ⟨⟨"Our error: No reservation for buy request.",
          by simp [Server.process_buy_bonus, h]⟩, ?_, ?_, ?_, fun c' => ?_⟩ <;>
          simp [Server.process_buy_bonus, h]
  · subst ht
    refine ⟨⟨"Our error: Reservation not made for that ticket for buy request.",
      by simp [Server.process_buy_bonus, hlk, hne]⟩, ?_, ?_, ?_, fun c' => ?_⟩
    · simp [Server.process_buy_bonus, hlk, hne]
    · simp [Server.process_buy_bonus, hlk, hne]
    · simp [Server.process_buy_bonus, hlk, hne]
    · simp only [Server.process_buy_bonus, hlk, hne, if_false]
      by_cases hc : c = c'
      · subst hc
        rw [lookupRes_insertRes]
        simp [hlk]
      · rw [lookupRes_insertRes]
        simp only [hc, if_false]
        exact lookupRes_removeRes_ne _ (fun hh => hc hh.symm)

theorem process_cancel_bonus_error (c : Nat) (t? : Option Nat) (s : Server)
    (db : List Nat) (hbad : badBuyInput c t? s.reserved) :
    (∃ msg, (Server.process_cancel_bonus c t? s db).2
        = (db, Response.err msg)) ∧
    (Server.process_cancel_bonus c t? s db).1.tickets = s.tickets ∧
    (Server.process_cancel_bonus c t? s db).1.status = s.status ∧
    (Server.process_cancel_bonus c t? s db).1.timeout_queue
        = s.timeout_queue ∧
    (∀ c', lookupRes (Server.process_cancel_bonus c t? s db).1.reserved c'
        = lookupRes s.reserved c') := by
  rcases hbad with h | h | ⟨rt, tm, t, ht, hlk, hne⟩
  · subst h
    exact ⟨⟨"Our error: No ticket id given.", rfl⟩, rfl, rfl, rfl,
      fun c' => rfl⟩
  · cases t? with
    | none =>
        exact ⟨⟨"Our error: No ticket id given.", rfl⟩, rfl, rfl, rfl,
          fun c' => rfl⟩
    | some t =>
        refine ⟨⟨"Our error: No reservation for cancel request.",
          by simp [Server.process_cancel_bonus, h]⟩, ?_, ?_, ?_,
          fun c' => ?_⟩ <;>
          simp [Server.process_cancel_bonus, h]
  · subst ht
    refine ⟨⟨"Our error: Reservation not made for that ticket for buy request.",
      by simp [Server.process_cancel_bonus, hlk, hne]⟩, ?_, ?_, ?_,
      fun c' => ?_⟩
    · simp [Server.process_cancel_bonus, hlk, hne]
    · simp [Server.process_cancel_bonus, hlk, hne]
    · simp [Server.process_cancel_bonus, hlk, hne]
    · simp only [Server.process_cancel_bonus, hlk, hne, if_false]
      by_cases hc : c = c'
      · subst hc
        rw [lookupRes_insertRes]
        simp [hlk]
      · rw [lookupRes_insertRes]
        simp only [hc, if_false]
        exact lookupRes_removeRes_ne _ (fun hh => hc hh.symm)

/-- Claim C6: a BuyTicket or AbortPurchase request with an unparseable ticket
id, a customer holding no reservation, or a ticket id differing from the
reserved ticket is answered with an error, and the reservation table
(including the original `created_at`), local stock, status, timeout queue
and database are left unchanged — literally for the standard worker, and up
to reservation-table lookups for the bonus worker (which removes and
re-inserts the reservation with its original value on a mismatch). -/
theorem buy_abort_error_spec (c : Nat) (t? : Option Nat) (s : Server)
    (db : List Nat) (hbad : badBuyInput c t? s.reserved) :
    (∃ msg, Server.process_buy c t? s db = (s, db, Response.err msg)) ∧
    (∃ msg, Server.process_cancel c t? s db = (s, db, Response.err msg)) ∧
    ((∃ msg, (Server.process_buy_bonus c t? s db).2
        = (db, Response.err msg)) ∧
     (Server.process_buy_bonus c t? s db).1.tickets = s.tickets ∧
     (Server.process_buy_bonus c t? s db).1.status = s.status ∧
     (Server.process_buy_bonus c t? s db).1.timeout_queue = s.timeout_queue ∧
     (∀ c', lookupRes (Server.process_buy_bonus c t? s db).1.reserved c'
        = lookupRes s.reserved c')) ∧
    ((∃ msg, (Server.process_cancel_bonus c t? s db).2
        = (db, Response.err msg)) ∧
     (Server.process_cancel_bonus c t? s db).1.tickets = s.tickets ∧
     (Server.process_cancel_bonus c t? s db).1.status = s.status ∧
     (Server.process_cancel_bonus c t? s db).1.timeout_queue
        = s.timeout_queue ∧
     (∀ c', lookupRes (Server.process_cancel_bonus c t? s db).1.reserved c'
        = lookupRes s.reserved c')) :=
  ⟨process_buy_error c t? s db hbad, process_cancel_error c t? s db hbad,
   process_buy_bonus_error c t? s db hbad,
   process_cancel_bonus_error c t? s db hbad⟩

/-- Witness for C6: customer 7 reserved ticket 9 but asks to buy ticket 5. -/
theorem buy_abort_error_spec_witness :
    badBuyInput 7 (some 5) serverC6.reserved ∧
    (∃ msg, Server.process_buy 7 (some 5) serverC6 [0]
      = (serverC6, [0], Response.err msg)) ∧
    (∀ c', lookupRes
        (Server.process_buy_bonus 7 (some 5) serverC6 [0]).1.reserved c'
      = lookupRes serverC6.reserved c') := by
  have hbad : badBuyInput 7 (some 5) serverC6.reserved :=
    Or.inr (Or.inr ⟨9, 2, 5, rfl, by decide, by decide⟩)
  exact ⟨hbad, (buy_abort_error_spec 7 (some 5) serverC6 [0] hbad).1,
    (buy_abort_error_spec 7 (some 5) serverC6 [0] hbad).2.2.1.2.2.2.2⟩

theorem lookupRes_removeRes_self {res : List (Nat × Nat × Nat)} {c : Nat}
    (hnd : (res.map (fun r => r.1)).Nodup) :
    lookupRes (removeRes res c) c = none := by
  induction res with
  | nil => rfl
  | cons hd tl ih =>
      obtain ⟨a, t, tm⟩ := hd
      simp only [List.map_cons, List.nodup_cons] at hnd
      by_cases hac : a = c
      · subst hac
        simp only [removeRes, eq_self_iff_true, if_true]
        cases hl : lookupRes tl a with
        | none => rfl
        | some v =>
            exfalso
            have : a ∈ tl.map (fun r => r.1) := by
              clear hnd ih
              induction tl with
              | nil => simp [lookupRes] at hl
              | cons hd' tl' ih' =>
                  obtain ⟨a', t', tm'⟩ := hd'
                  by_cases ha' : a' = a
                  · simp [ha']
                  · simp only [lookupRes, ha', if_false] at hl
                    simp [ih' hl]
            exact hnd.1 this
      · simp only [removeRes, if_neg hac, lookupRes, hac, if_false]
        exact ih hnd.2

/-- Claim C7: an AbortPurchase whose customer holds the reservation `(t, tm)`
and whose supplied ticket id equals `t` removes the reservation, appends `t`
to the local stock when Active and deallocates it to the database otherwise,
promotes Terminating → Terminated if this emptied the reservations, and
replies with `t`.  Stated for both the standard and the bonus worker; the
`hnd` hypothesis is key-uniqueness of the reservation table (a `HashMap` in
the source). -/
theorem abort_success_spec (c t tm : Nat) (s : Server) (db : List Nat)
    (hlk : lookupRes s.reserved c = some (t, tm))
    (hnd : (s.reserved.map (fun r => r.1)).Nodup) :
    Server.process_cancel c (some t) s db
      = ({ s with
           reserved := removeRes s.reserved c,
           tickets := if s.status = ServerStatus.active then s.tickets ++ [t]
                      else s.tickets,
           status := if (removeRes s.reserved c).isEmpty
                        ∧ s.status = ServerStatus.terminating
                     then ServerStatus.terminated else s.status },
         if s.status = ServerStatus.active then db
         else Database.deallocate db [t],
         Response.int t) ∧
    Server.process_cancel_bonus c (some t) s db
      = Server.process_cancel c (some t) s db ∧
    lookupRes (Server.process_cancel c (some t) s db).1.reserved c = none := by
  refine ⟨?_, ?_, ?_⟩
  · simp only [Server.process_cancel, hlk, if_pos rfl, eq_self_iff_true,
      if_true]
    by_cases hact : s.status = ServerStatus.active <;> simp [hact]
  · simp only [Server.process_cancel, Server.process_cancel_bonus, hlk,
      eq_self_iff_true, if_true]
  · simp only [Server.process_cancel, hlk, eq_self_iff_true, if_true]
    exact lookupRes_removeRes_self hnd

/-- Witness for C7: customer 7 aborts the purchase of its reserved ticket 9
on `serverC6`. -/
theorem abort_success_spec_witness :
    lookupRes serverC6.reserved 7 = some (9, 2) ∧
    (serverC6.reserved.map (fun r => r.1)).Nodup ∧
    Server.process_cancel_bonus 7 (some 9) serverC6 [0]
      = Server.process_cancel 7 (some 9) serverC6 [0] ∧
    lookupRes (Server.process_cancel 7 (some 9) serverC6 [0]).1.reserved 7
      = none :=
  ⟨by decide, by decide,
   (abort_success_spec 7 9 2 serverC6 [0] (by decide) (by decide)).2.1,
   (abort_success_spec 7 9 2 serverC6 [0] (by decide) (by decide)).2.2⟩

/-- Claim C8 is a code bug: the spec requires a customer-scoped request
arriving while `active_count` is 0 to be answered with a "no server
available" error, but `CoordinatorStandard::get_random_server` evaluates
`rng.gen_range(0..0)`, which panics — no response is ever produced.  This
theorem evaluates the embedded routing path at the failing inputs: a fresh
coordinator with zero active workers, a request without (and with) a sticky
server id. -/

theorem no_server_available_code_bug :
    CoordinatorStandard.get_random_server ⟨0, [], []⟩ 0 = none ∧
    balancer_route ⟨0, [], []⟩ [] none 0 = RouteOutcome.panicked ∧
    balancer_route ⟨0, [], []⟩ [] none 5 = RouteOutcome.panicked ∧
    balancer_route ⟨0, [], []⟩ [] (some 42) 0 = RouteOutcome.panicked := by
  decide

theorem sumValuesN_split (m : List (Nat × Nat)) (k : Nat)
    (h : containsN m k = true) :
    sumValuesN m = (lookupN m k).getD 0 + sumValuesN (removeN m k) ∧
    ∀ v, sumValuesN (setN m k v) = v + sumValuesN (removeN m k) := by
  induction m with
  | nil => simp [containsN, lookupN] at h
  | cons hd tl ih =>
      obtain ⟨a, b⟩ := hd
      by_cases hak : a = k
      · subst hak
        constructor
        · simp [sumValuesN, lookupN, removeN]
        · intro v
          simp [sumValuesN, setN, removeN]
      · have h' : containsN tl k = true := by
          simpa [containsN, lookupN, hak] using h
        obtain ⟨ih1, ih2⟩ := ih h'
        constructor
        · simp only [sumValuesN, lookupN, removeN, hak, if_false,
            List.map_cons, List.sum_cons] at ih1 ⊢
          omega
        · intro v
          have := ih2 v
          simp only [sumValuesN, setN, removeN, hak, if_false,
            List.map_cons, List.sum_cons] at this ⊢
          omega

theorem containsN_setN (m : List (Nat × Nat)) (k v k' : Nat) :
    containsN (setN m k v) k' = containsN m k' := by
  induction m with
  | nil => rfl
  | cons hd tl ih =>
      obtain ⟨a, b⟩ := hd
      by_cases hak : a = k
      · subst hak
        by_cases hak' : a = k' <;> simp [setN, containsN, lookupN, hak']
      · simp only [setN, if_neg hak]
        by_cases hak' : a = k'
        · simp [containsN, lookupN, hak']
        · simp only [containsN, lookupN, hak', if_false]
          exact ih

theorem estRun_eq_spec (db : Nat) :
    ∀ (evs : List SweepEvent) (m : List (Nat × Nat)) (sum : Nat),
    sum = sumValuesN m →
    (∀ ev ∈ evs, containsN m ev.server = true) →
    estRun db m sum evs = estRunSpec db m evs := by
  intro evs
  induction evs with
  | nil => intro m sum _ _; rfl
  | cons ev rest ih =>
      intro m sum hsum hmem
      have hc : containsN m ev.server = true := hmem ev (List.mem_cons_self _ _)
      obtain ⟨hsplit, hset⟩ := sumValuesN_split m ev.server hc
      have hlook : (lookupN m ev.server).getD 0 ≤ sum := by omega
      have hsum1 : sum - (lookupN m ev.server).getD 0
          = sumValuesN (removeN m ev.server) := by omega
      have hrec : sum - (lookupN m ev.server).getD 0
            + (if ev.sendOk then ev.reply else 0)
          = sumValuesN (setN m ev.server
              (if ev.sendOk then ev.reply else 0)) := by
        rw [hset]
        omega
      have hmem' : ∀ e ∈ rest,
          containsN (setN m ev.server
            (if ev.sendOk then ev.reply else 0)) e.server = true := by
        intro e he
        rw [containsN_setN]
        exact hmem e (List.mem_cons_of_mem _ he)
      show (_, (ev.server, sum - (lookupN m ev.server).getD 0 + db) :: _)
        = (_, (ev.server, db + sumValuesN (removeN m ev.server)) :: _)
      rw [hrec, ih _ _ rfl hmem', hsum1, Nat.add_comm _ db]

/-- Claim C9: in every estimator sweep (standard and plain variants share
this loop), the value carried by the `Estimate` message sent to each tracked
worker equals the database count read at the start of the sweep plus the sum
of the last-reported local-stock counts of every other tracked worker,
counts already refreshed earlier in the same sweep included; a successful
send's reply overwrites the worker's `server_tickets` entry and a failed
send sets it to 0 (the update rule shared by `estRunSpec`).  The hypothesis
is that every visited worker has an entry in `server_tickets` (both maps are
kept key-synchronised by the scale-event handling; the variant in
`estimator.rs` inserts missing entries with `or_insert(0)` before the
loop). -/
theorem estimator_sweep_spec (db : Nat) (m : List (Nat × Nat))
    (evs : List SweepEvent)
    (hmem : ∀ ev ∈ evs, containsN m ev.server = true) :
    estimator_sweep db m evs = estRunSpec db m evs :=
  estRun_eq_spec db evs m (sumValuesN m) rfl hmem

/-- Witness for C9: a sweep over two tracked workers, the second of which
has terminated (failed send); database count 5. -/
theorem estimator_sweep_spec_witness :
    (∀ ev ∈ [SweepEvent.mk 1 true 7, SweepEvent.mk 2 false 9],
      containsN [(1, 2), (2, 3)] ev.server = true) ∧
    estimator_sweep 5 [(1, 2), (2, 3)]
        [SweepEvent.mk 1 true 7, SweepEvent.mk 2 false 9]
      = estRunSpec 5 [(1, 2), (2, 3)]
          [SweepEvent.mk 1 true 7, SweepEvent.mk 2 false 9] ∧
    (estimator_sweep 5 [(1, 2), (2, 3)]
        [SweepEvent.mk 1 true 7, SweepEvent.mk 2 false 9]).2
      = [(1, 8), (2, 12)] :=
  ⟨by decide,
   estimator_sweep_spec 5 [(1, 2), (2, 3)]
     [SweepEvent.mk 1 true 7, SweepEvent.mk 2 false 9] (by decide),
   by decide⟩

/-- Claim C10: constructing a standard worker (`Server::new`) immediately
allocates `min(2 * ⌊√avail⌋, avail)` tickets from the database into the new
worker's local stock, where `avail` is the database's availability at
construction; consequently a spawn step performed by `scale_to` appends a
worker already holding that stock and strictly reduces
`database.available()` whenever the database was non-empty — before the new
worker has served any request. -/
theorem server_new_spec (timeout : Nat) (db : List Nat) (σ : Sys)
    (hpos : 0 < Database.get_num_available db) :
    (Server.new timeout db).1.tickets.length
      = min (2 * Nat.sqrt (Database.get_num_available db))
          (Database.get_num_available db) ∧
    (Server.new timeout db).1.status = ServerStatus.active ∧
    (Server.new timeout db).1.reserved = [] ∧
    Database.get_num_available (Server.new timeout db).2
      = Database.get_num_available db
        - min (2 * Nat.sqrt (Database.get_num_available db))
            (Database.get_num_available db) ∧
    Database.get_num_available (Server.new timeout db).2
      < Database.get_num_available db ∧
    sysStep σ (Op.spawn timeout)
      = { db := (Server.new timeout σ.db).2,
          workers := σ.workers ++ [(Server.new timeout σ.db).1],
          sold := σ.sold } := by
  have hsq : 0 < Nat.sqrt (Database.get_num_available db) :=
    Nat.sqrt_pos.mpr hpos
  have hfst := Database.allocate_fst_length db
    (Server.batchSizeStd (Database.get_num_available db))
  have hsnd := Database.allocate_snd_length db
    (Server.batchSizeStd (Database.get_num_available db))
  have hbatch : Server.batchSizeStd (Database.get_num_available db)
      = min (2 * Nat.sqrt (Database.get_num_available db))
          (Database.get_num_available db) := rfl
  have hdb : Database.get_num_available db = db.length := rfl
  refine ⟨?_, rfl, rfl, ?_, ?_, rfl⟩
  · show (Database.allocate db
        (Server.batchSizeStd (Database.get_num_available db))).1.length = _
    rw [hfst, hbatch, hdb]
    omega
  · show (Database.allocate db
        (Server.batchSizeStd (Database.get_num_available db))).2.length = _
    rw [hsnd, hbatch, hdb]
    omega
  · show (Database.allocate db
        (Server.batchSizeStd (Database.get_num_available db))).2.length < _
    rw [hsnd, hbatch, hdb]
    rw [hdb] at hpos hsq
    omega

/-- Witness for C10: spawning over a 5-ticket database allocates
`min(2·⌊√5⌋, 5) = 4` tickets into the fresh worker. -/
theorem server_new_spec_witness :
    0 < Database.get_num_available [0, 1, 2, 3, 4] ∧
    (Server.new 10 [0, 1, 2, 3, 4]).1.tickets.length
      = min (2 * Nat.sqrt (Database.get_num_available [0, 1, 2, 3, 4]))
          (Database.get_num_available [0, 1, 2, 3, 4]) ∧
    Database.get_num_available (Server.new 10 [0, 1, 2, 3, 4]).2
      < Database.get_num_available [0, 1, 2, 3, 4] :=
  ⟨by decide,
   (server_new_spec 10 [0, 1, 2, 3, 4] ⟨[], [], []⟩ (by decide)).1,
   (server_new_spec 10 [0, 1, 2, 3, 4] ⟨[], [], []⟩ (by decide)).2.2.2.2.1⟩
